import Mathlib

/-!
Verification of the bookvert/audiovert core: the filename sanitizer, the
priority-merging tag resolver, the path synthesizer, the tag transplanter
(`meta.rs`), and the interactive selection step (`interactive.rs`).
Strings are modelled as `String`/`List Char`, machine integers as `Nat`/`Int`
with explicit bounds where the source type's range matters.
-/

/-- Rust `char::is_whitespace`: membership in the Unicode White_Space set. -/
def rustWs (c : Char) : Bool :=
  c == ' ' || c == '\t' || c == '\n' || c == '\x0b' || c == '\x0c' || c == '\r' ||
  c == '\u0085' || c == ' ' || c == ' ' ||
  c == ' ' || c == ' ' || c == ' ' || c == ' ' || c == ' ' ||
  c == ' ' || c == ' ' || c == ' ' || c == ' ' || c == ' ' ||
  c == ' ' || c == ' ' || c == ' ' || c == ' ' || c == ' ' ||
  c == '　'

/-- `fn map(c: char) -> Option<&'static str>` nested inside `sanitize` in `meta.rs`:
the replacement table for special characters other than `:`. -/
def map : Char → Option (List Char)
  | '\\' => some ['+']
  | '/' => some ['+']
  | '<' => some []
  | '>' => some []
  | '?' => some []
  | '*' => some ['-']
  | '|' => some []
  | '"' => some []
  | _ => none

/-- A character on which the scan phase of `sanitize` breaks out of the
`'normalize` loop: `:` or any character that `map` rewrites. -/
def isSpecial (c : Char) : Bool := c == ':' || (map c).isSome

/-- The `while let Some(c) = it.next()` transform loop of `sanitize`, with the
`last_whitespace` flag threaded as the second argument.  The `:` arm peeks at
the next character (`it.clone().next()`) and consumes it when it is whitespace;
neither the `:` arm nor the `map` replacements update the flag. -/
def sanLoop : List Char → Bool → List Char
  | [], _ => []
  | c :: rest, lw =>
    if c = ':' then
      match rest with
      | c2 :: rest2 =>
        if rustWs c2 then ' ' :: '-' :: ' ' :: sanLoop rest2 lw
        else '-' :: sanLoop (c2 :: rest2) lw
      | [] => ['-']
    else
      match map c with
      | some repl => repl ++ sanLoop rest lw
      | none =>
        if lw && rustWs c then sanLoop rest lw
        else c :: sanLoop rest (rustWs c)

/-- The scan phase of `sanitize`: walk the characters accumulating the verbatim
part until the first special character, then hand the remainder (special
character included) to the transform loop with `last_whitespace = false`; if no
special character occurs, the input is returned unchanged. -/
def sanitizeAux : List Char → List Char → List Char
  | acc, [] => acc.reverse
  | acc, c :: rest =>
    if isSpecial c then acc.reverse ++ sanLoop (c :: rest) false
    else sanitizeAux (c :: acc) rest

/-- `fn sanitize(s: &str) -> Cow<'_, str>` from `meta.rs`, on character lists. -/
def sanitize (l : List Char) : List Char := sanitizeAux [] l

/-- `sanitize` on `String`. -/
def sanitizeStr (s : String) : String := String.mk (sanitize s.data)

/-- The transform loop as the words of the specification describe it: the flag
records whether the most recently *emitted* character was whitespace, so the
`" - "` emitted for `:`-then-whitespace sets it and the `+`/`-` replacements
clear it.  Declared only to be compared against `sanLoop`. -/
def claimLoop : List Char → Bool → List Char
  | [], _ => []
  | c :: rest, lw =>
    if c = ':' then
      match rest with
      | c2 :: rest2 =>
        if rustWs c2 then ' ' :: '-' :: ' ' :: claimLoop rest2 true
        else '-' :: claimLoop (c2 :: rest2) false
      | [] => ['-']
    else
      match map c with
      | some repl =>
        repl ++ claimLoop rest (match repl.getLast? with
          | some r => rustWs r
          | none => lw)
      | none =>
        if lw && rustWs c then claimLoop rest lw
        else c :: claimLoop rest (rustWs c)

/-- Modelled from the spec: the whole sanitizer under the claimed transform
semantics, where the collapse test consults the actually last emitted character
(initially the last character of the verbatim part).  Declared only to be
compared against `sanitize`. -/
def sanitizeClaimAux : List Char → List Char → List Char
  | acc, [] => acc.reverse
  | acc, c :: rest =>
    if isSpecial c then
      acc.reverse ++ claimLoop (c :: rest) (match acc with
        | a :: _ => rustWs a
        | [] => false)
    else sanitizeClaimAux (c :: acc) rest

/-- Modelled from the spec: `sanitize` as claim C8 words it, on `String`. -/
def sanitizeClaimStr (s : String) : String := String.mk (sanitizeClaimAux [] s.data)

/-- Digit-string value, most significant digit first. -/
def digitsVal (l : List Char) : Nat :=
  l.foldl (fun acc c => acc * 10 + (c.toNat - '0'.toNat)) 0

/-- A non-empty all-ASCII-digit string parsed to a `Nat`, else `none`. -/
def parseNatDigits (l : List Char) : Option Nat :=
  if l.isEmpty then none
  else if l.all Char.isDigit then some (digitsVal l) else none

/-- Strip one leading `+` sign if present. -/
def stripPlus (l : List Char) : List Char :=
  match l with
  | c :: r => if c = '+' then r else c :: r
  | [] => []

/-- Rust `u32::from_str`: optional leading `+`, then one or more ASCII digits,
no surrounding whitespace allowed, value below `2^32`. -/
def rustParseU32 (l : List Char) : Option Nat :=
  match parseNatDigits (stripPlus l) with
  | some n => if n < 4294967296 then some n else none
  | none => none

/-- Rust `i16::from_str`: optional sign, ASCII digits, value in the `i16` range,
no surrounding whitespace allowed. -/
def rustParseI16 (l : List Char) : Option Int :=
  match l with
  | '-' :: r =>
    match parseNatDigits r with
    | some n => if n ≤ 32768 then some (-(n : Int)) else none
    | none => none
  | _ =>
    match parseNatDigits (stripPlus l) with
    | some n => if n ≤ 32767 then some (n : Int) else none
    | none => none

/-- Rust `str::trim`: drop Unicode whitespace from both ends. -/
def trimChars (l : List Char) : List Char :=
  ((l.dropWhile rustWs).reverse.dropWhile rustWs).reverse

/-- Gregorian leap year. -/
def isLeapYear (y : Nat) : Bool := (y % 4 == 0 && y % 100 != 0) || y % 400 == 0

/-- Days in a month of the proleptic Gregorian calendar. -/
def daysInMonth (y m : Nat) : Nat :=
  if m == 2 then (if isLeapYear y then 29 else 28)
  else if m == 4 || m == 6 || m == 9 || m == 11 then 30
  else 31

/-- Models the external calendar-date parser (`jiff::civil::Date::from_str`) on
the ISO-8601 extended calendar-date form `YYYY-MM-DD` with calendar validity,
returning the year component as `Date::year` does. -/
def parseDateYear (l : List Char) : Option Int :=
  match l with
  | [y1, y2, y3, y4, s1, m1, m2, s2, d1, d2] =>
    if s1 == '-' && s2 == '-' && [y1, y2, y3, y4, m1, m2, d1, d2].all Char.isDigit then
      let y := digitsVal [y1, y2, y3, y4]
      let m := digitsVal [m1, m2]
      let d := digitsVal [d1, d2]
      if 1 ≤ m && m ≤ 12 && 1 ≤ d && d ≤ daysInMonth y m then some (y : Int) else none
    else none
  | _ => none

/-- `lofty::tag::ItemKey`, restricted to the keys `Parts::from_path` matches on
plus a catch-all for every other key (the `_ => {}` arm). -/
inductive ItemKey
  | OriginalReleaseDate
  | ReleaseDate
  | Year
  | RecordingDate
  | AlbumTitle
  | AlbumArtist
  | TrackArtist
  | TrackTitle
  | TrackNumber
  | OriginalMediaType
  | DiscNumber
  | DiscTotal
  | OtherKey
deriving DecidableEq

/-- `lofty::tag::ItemValue`. -/
inductive ItemValue
  | Text (s : String)
  | Locator (s : String)
  | Binary (data : List Nat)
deriving DecidableEq

/-- `lofty::tag::ItemValue::text`: the text of a `Text` value, `none` otherwise. -/
def ItemValue.text : ItemValue → Option String
  | .Text s => some s
  | _ => none

/-- `lofty::tag::TagItem` as consumed by the resolver: a key/value pair. -/
structure TagItem where
  key : ItemKey
  value : ItemValue
deriving DecidableEq

/-- The `Prio<T>` container nested in `Parts::from_path`: current value and the
priority it was adopted at, lower is better. -/
structure Prio (T : Type) where
  value : Option T
  prio : Nat
deriving DecidableEq

/-- `Prio::new`: no value, priority `u32::MAX`. -/
def Prio.new {T : Type} : Prio T := ⟨none, 4294967295⟩

/-- `Prio::update`: adopt the new value only when it parsed (`Some`) and its
priority is strictly smaller than the current one. -/
def Prio.update {T : Type} (st : Prio T) (new : Option T) (p : Nat) : Prio T :=
  match new with
  | some v => if p < st.prio then { value := some v, prio := p } else st
  | none => st

/-- `fn text(value: &ItemValue) -> Option<&str>` from `Parts::from_path`:
trim, reject when empty after trimming. -/
def text (v : ItemValue) : Option String :=
  match v.text with
  | none => none
  | some s =>
    let t := trimChars s.data
    if t.isEmpty then none else some (String.mk t)

/-- `fn year_like(value: &ItemValue) -> Option<i16>` from `Parts::from_path`:
trim, try a calendar date's year first, then a bare `i16`. -/
def yearLike (v : ItemValue) : Option Int :=
  match v.text with
  | none => none
  | some s =>
    let t := trimChars s.data
    match parseDateYear t with
    | some y => some y
    | none => rustParseI16 t

/-- `fn parse<T: FromStr>(value: &ItemValue) -> Option<T>` from
`Parts::from_path`, instantiated at `u32` (the type of every call site:
track number, disc number, disc total).  Note: no trimming. -/
def parse32 (v : ItemValue) : Option Nat :=
  match v.text with
  | none => none
  | some s => rustParseU32 s.data

/-- Modelled from the spec: the numeric extractor as claim C9 words it,
parsing the *trimmed* text.  Declared only to be compared against `parse32`. -/
def parseClaimC9 (v : ItemValue) : Option Nat :=
  match v.text with
  | none => none
  | some s => rustParseU32 (trimChars s.data)

/-- The eight per-field accumulators that the `parse!` macro invocation in
`Parts::from_path` declares. -/
structure Accs where
  year : Prio Int
  album : Prio String
  artist : Prio String
  title : Prio String
  track : Prio Nat
  mediaType : Prio String
  discNumber : Prio Nat
  discTotal : Prio Nat
deriving DecidableEq

/-- All accumulators fresh. -/
def Accs.new : Accs :=
  ⟨Prio.new, Prio.new, Prio.new, Prio.new, Prio.new, Prio.new, Prio.new, Prio.new⟩

/-- One iteration of the `for item in tag.items()` loop the `parse!` macro
expands to: the key table with its hand-authored priorities. -/
def Accs.step (a : Accs) (item : TagItem) : Accs :=
  match item.key with
  | .OriginalReleaseDate => { a with year := a.year.update (yearLike item.value) 1 }
  | .ReleaseDate => { a with year := a.year.update (yearLike item.value) 2 }
  | .Year => { a with year := a.year.update (yearLike item.value) 3 }
  | .RecordingDate => { a with year := a.year.update (yearLike item.value) 4 }
  | .AlbumTitle => { a with album := a.album.update (text item.value) 1 }
  | .AlbumArtist => { a with artist := a.artist.update (text item.value) 1 }
  | .TrackArtist => { a with artist := a.artist.update (text item.value) 2 }
  | .TrackTitle => { a with title := a.title.update (text item.value) 1 }
  | .TrackNumber => { a with track := a.track.update (parse32 item.value) 1 }
  | .OriginalMediaType => { a with mediaType := a.mediaType.update (text item.value) 1 }
  | .DiscNumber => { a with discNumber := a.discNumber.update (parse32 item.value) 1 }
  | .DiscTotal => { a with discTotal := a.discTotal.update (parse32 item.value) 1 }
  | .OtherKey => a

/-- Run the `parse!` loop over all items of the primary tag. -/
def resolveAccs (items : List TagItem) : Accs := items.foldl Accs.step Accs.new

/-- The canonical metadata record `Parts` from `meta.rs`. -/
structure Parts where
  year : Int
  artist : String
  album : String
  track : Nat
  title : String
  mediaType : Option String
  set : Option (Nat × Nat)
deriving DecidableEq

/-- The `let mut value = || { ... }` closure at the end of `Parts::from_path`:
push one error per missing required field (in source order), build the disc
pair only when both halves resolved, and construct the record only when all
five required fields resolved. -/
def partsValue (a : Accs) : List String × Option Parts :=
  let es :=
    (if a.year.value.isNone then ["missing year"] else [])
    ++ (if a.album.value.isNone then ["missing album"] else [])
    ++ (if a.artist.value.isNone then ["missing artist"] else [])
    ++ (if a.title.value.isNone then ["missing title"] else [])
    ++ (if a.track.value.isNone then ["missing track number"] else [])
  let set :=
    match a.discNumber.value, a.discTotal.value with
    | some n, some total => some (n, total)
    | _, _ => none
  let p :=
    match a.year.value, a.artist.value, a.album.value, a.track.value, a.title.value with
    | some y, some ar, some al, some tr, some ti =>
      some { year := y, artist := ar, album := al, track := tr, title := ti,
             mediaType := a.mediaType.value, set := set }
    | _, _, _, _, _ => none
  (es, p)

/-- Resolver pipeline after the primary-tag guard: run the accumulators, then
the value closure. -/
def resolveParts (items : List TagItem) : List String × Option Parts :=
  partsValue (resolveAccs items)

/-- `Parts::from_path` after decoding, on the decoded primary tag: `none` means
the file had no primary tag (source lines 54-57), in which case the single
error `"missing primary tag"` is pushed and `Ok(None)` is returned at once. -/
def fromPath (primary : Option (List TagItem)) (errors : List String) :
    List String × Option Parts :=
  match primary with
  | none => (errors ++ ["missing primary tag"], none)
  | some items =>
    let r := resolveParts items
    (errors ++ r.1, r.2)

/-- Rust `{:02}` formatting of an unsigned value: zero-pad to width 2. -/
def pad2 (n : Nat) : String :=
  if (toString n).length < 2 then "0" ++ toString n else toString n

/-- `Parts::append_to`: push the sanitized path segments onto the path buffer
in source order; the disc segment only when a disc pair is present with
`total > 1`. -/
def appendTo (p : Parts) (path : List String) : List String :=
  let path := path ++ [sanitizeStr p.artist]
  let path := path ++ [sanitizeStr (p.album ++ " (" ++ toString p.year ++ ")")]
  let path :=
    match p.set with
    | some (n, total) =>
      if 1 < total then
        path ++ [sanitizeStr ((match p.mediaType with
          | some m => m ++ " "
          | none => "") ++ pad2 n)]
      else path
    | none => path
  path ++ [sanitizeStr (p.artist ++ " - " ++ p.album ++ " - " ++ pad2 p.track
            ++ " - " ++ p.title)]

/-- `lofty::tag::TagType`, the variants `repr_tag_type` names. -/
inductive TagType
  | Ape
  | Id3v1
  | Id3v2
  | Mp4Ilst
  | VorbisComments
  | RiffInfo
  | AiffText
deriving DecidableEq

/-- A decoded tag: its type and its items. -/
structure Tag where
  tagType : TagType
  items : List TagItem
deriving DecidableEq

/-- `lofty::tag::Tag::new`. -/
def Tag.new (t : TagType) : Tag := ⟨t, []⟩

/-- `lofty::tag::Tag::insert`: when the item's key is representable in the
tag's type, replace any item of the same key and append the new one; an
unsupported item is skipped.  Representability is the external key-mapping
table, passed in as `supported`. -/
def Tag.insert (supported : TagType → ItemKey → Bool) (t : Tag) (item : TagItem) : Tag :=
  if supported t.tagType item.key then
    { t with items := t.items.filter (fun i => i.key != item.key) ++ [item] }
  else t

/-- The tag-construction core of `Meta::tag_file` (the `'done:` block): given
the source primary tag (or `none`), the freshly probed target's native tag
type, and the external representability table, produce the tag inserted into
the cleared target; `none` means the whole call was a successful no-op. -/
def tagFileCore (source : Option Tag) (native : TagType)
    (supported : TagType → ItemKey → Bool) : Option Tag :=
  match source with
  | none => none
  | some src =>
    if src.tagType = native then some src
    else some (src.items.foldl (Tag.insert supported) (Tag.new native))

/-- The `View` enumeration of `interactive.rs`. -/
inductive View
  | Catalogs
  | Books (idx : Nat)
deriving DecidableEq

/-- The fields of `App` that the key handlers read and write (the ratatui
`ListState` is a pure display cache rebuilt on every draw and is omitted). -/
structure App where
  view : View
  catalogIndex : Nat
  bookIndex : Nat
  scrollX : Nat
  expanded : List Nat
deriving DecidableEq

/-- One catalog as the selection loop sees it: its number and candidate books
(by display name). -/
structure CatalogM where
  number : Nat
  books : List String
deriving DecidableEq

/-- `HashMap::insert` on the pick table (catalog index to picked book index):
replace any existing entry for the key. -/
def insertPick (picked : List (Nat × Nat)) (k v : Nat) : List (Nat × Nat) :=
  (k, v) :: picked.filter (fun e => e.1 != k)

/-- `HashMap::get` on the pick table. -/
def lookupPick (picked : List (Nat × Nat)) (k : Nat) : Option Nat :=
  match picked.find? (fun e => e.1 == k) with
  | some e => some e.2
  | none => none

/-- Modelled from the spec: `State::next_unpicked`, whose definition is not
among the given sources (only its caller is).  Per the pick-table invariant of
the data model, it yields the next catalog that has no entry in the pick
table, `none` when every catalog is resolved. -/
def nextUnpicked (catalogs : List CatalogM) (picked : List (Nat × Nat)) : Option Nat :=
  (List.range catalogs.length).find? (fun i => (lookupPick picked i).isNone)

/-- The `KeyCode::Enter` handler of `App::run` (`interactive.rs` lines
117-131): in the catalog list, open the selected catalog's book list seeded
from any existing pick; in a book list, record the pick, finish with outcome
`true` when no catalog is left unpicked, and otherwise return to the catalog
list clearing the expansion set.  The third component is the loop outcome,
`none` when the loop continues. -/
def enterStep (catalogs : List CatalogM) (app : App) (picked : List (Nat × Nat)) :
    App × List (Nat × Nat) × Option Bool :=
  match app.view with
  | .Catalogs =>
    ({ app with view := .Books app.catalogIndex,
                bookIndex := (lookupPick picked app.catalogIndex).getD 0 },
     picked, none)
  | .Books catIdx =>
    let picked2 := insertPick picked catIdx app.bookIndex
    if (nextUnpicked catalogs picked2).isNone then (app, picked2, some true)
    else ({ app with view := .Catalogs, expanded := [] }, picked2, none)

/-- Two one-book catalogs, for the selection counterexample. -/
def catsEx : List CatalogM := [⟨1, ["b0"]⟩, ⟨2, ["c0"]⟩]

/-- Cursor on candidate 0 of catalog 0's book list. -/
def appEx : App := ⟨.Books 0, 0, 0, 0, []⟩

/-- A concrete tag item for the transplant witness. -/
def tagItemEx : TagItem := ⟨.AlbumTitle, .Text "X"⟩

/-- A concrete source tag for the transplant witness. -/
def srcTagEx : Tag := ⟨.Id3v2, [tagItemEx]⟩

/-- The worked `append_to` example record. -/
def pfEx : Parts :=
  { year := 1979, artist := "Pink Floyd", album := "The Wall", track := 5,
    title := "Mother", mediaType := some "CD", set := some (1, 2) }

/-- The same record with disc total 1. -/
def pfEx1 : Parts := { pfEx with set := some (1, 1) }

/-- If no character of `l` is special, the scan phase walks the whole input and
returns it unchanged. -/
theorem sanitizeAux_clean (l : List Char) :
    ∀ acc : List Char, (∀ c ∈ l, isSpecial c = false) →
      sanitizeAux acc l = acc.reverse ++ l := by
  induction l with
  | nil => intro acc _; simp [sanitizeAux]
  | cons c rest ih =>
    intro acc h
    have hc : isSpecial c = false := h c (List.mem_cons_self c rest)
    have hrest : ∀ d ∈ rest, isSpecial d = false := fun d hd => h d (List.mem_cons_of_mem c hd)
    simp [sanitizeAux, hc, ih (c :: acc) hrest]

/-- When a special character `d` occurs after a clean run `p`, the scan phase
copies `p` verbatim and hands `d :: r` to the transform loop with the
`last_whitespace` flag starting at `false`. -/
theorem sanitizeAux_split (p : List Char) (d : Char) (r : List Char)
    (hp : ∀ c ∈ p, isSpecial c = false) (hd : isSpecial d = true) :
    ∀ acc : List Char, sanitizeAux acc (p ++ d :: r) = acc.reverse ++ p ++ sanLoop (d :: r) false := by
  induction p with
  | nil => intro acc; simp [sanitizeAux, hd]
  | cons c p2 ih =>
    intro acc
    have hc : isSpecial c = false := hp c (List.mem_cons_self c p2)
    have hp2 : ∀ e ∈ p2, isSpecial e = false := fun e he => hp e (List.mem_cons_of_mem c he)
    simp [sanitizeAux, hc, ih hp2 (c :: acc), List.append_assoc]

/-- C2: `sanitize` is the identity on clean input — for every string with no
character from the special set (no `\\ / < > ? * | "` and no `:`, i.e. no
character the scan phase stops on), `sanitize` returns the string unchanged,
with no whitespace collapsing or any other transformation. -/
theorem sanitize_clean_identity (s : String)
    (h : ∀ c ∈ s.data, isSpecial c = false) : sanitizeStr s = s := by
  have hs : sanitize s.data = s.data := by
    simpa [sanitize] using sanitizeAux_clean s.data [] h
  obtain ⟨d⟩ := s
  simp only [sanitizeStr]
  exact congrArg String.mk hs

/-- Witness for C2 at a concrete clean string containing whitespace. -/
theorem sanitize_clean_identity_witness : sanitizeStr "Pink Floyd" = "Pink Floyd" :=
  sanitize_clean_identity "Pink Floyd" (by decide)

/-- C7: the transform-phase character rules of `sanitize` — backslash and `/`
become `+`; `<`, `>`, `?`, `|`, `"` are deleted; `*` becomes `-`; a `:`
followed by whitespace emits `" - "` consuming both, a `:` not followed by
whitespace emits `-`; consequently `sanitize("A/B") = "A+B"`,
`sanitize("Unknown: Title") = "Unknown - Title"`, `sanitize("10:30") = "10-30"`. -/
theorem sanitize_transform_rules :
    (∀ (rest : List Char) (lw : Bool), sanLoop ('\\' :: rest) lw = '+' :: sanLoop rest lw)
    ∧ (∀ (rest : List Char) (lw : Bool), sanLoop ('/' :: rest) lw = '+' :: sanLoop rest lw)
    ∧ (∀ (rest : List Char) (lw : Bool), sanLoop ('<' :: rest) lw = sanLoop rest lw)
    ∧ (∀ (rest : List Char) (lw : Bool), sanLoop ('>' :: rest) lw = sanLoop rest lw)
    ∧ (∀ (rest : List Char) (lw : Bool), sanLoop ('?' :: rest) lw = sanLoop rest lw)
    ∧ (∀ (rest : List Char) (lw : Bool), sanLoop ('|' :: rest) lw = sanLoop rest lw)
    ∧ (∀ (rest : List Char) (lw : Bool), sanLoop ('"' :: rest) lw = sanLoop rest lw)
    ∧ (∀ (rest : List Char) (lw : Bool), sanLoop ('*' :: rest) lw = '-' :: sanLoop rest lw)
    ∧ (∀ (c : Char) (rest : List Char) (lw : Bool),
        sanLoop (':' :: c :: rest) lw =
          if rustWs c then ' ' :: '-' :: ' ' :: sanLoop rest lw
          else '-' :: sanLoop (c :: rest) lw)
    ∧ sanitizeStr "A/B" = "A+B"
    ∧ sanitizeStr "Unknown: Title" = "Unknown - Title"
    ∧ sanitizeStr "10:30" = "10-30" := by
  refine ⟨?_, ?_, ?_, ?_, ?_, ?_, ?_, ?_, ?_, by decide, by decide, by decide⟩ <;>
    intros <;> rw [sanLoop.eq_def] <;> simp [map]

/-- C8 counterexample: on `"a:  b"` the `:`-then-whitespace rule emits `" - "`
(whose last character is a whitespace) but the collapse flag is not updated, so
the following space is emitted although the immediately preceding emitted
character was whitespace: the code produces `"a -  b"` while the claimed rule
produces `"a - b"`. -/
theorem sanitize_collapse_cex :
    sanitizeStr "a:  b" = "a -  b"
    ∧ sanitizeClaimStr "a:  b" = "a - b"
    ∧ sanitizeStr "a:  b" ≠ sanitizeClaimStr "a:  b" := by
  refine ⟨by decide, by decide, by decide⟩

/-- C8 (amended): whitespace before the first special character is never
collapsed (the verbatim part is copied unchanged and the flag starts at
`false`); from there on a non-special character is dropped exactly when it is
whitespace and the `last_whitespace` flag is set, and otherwise is emitted with
the flag becoming its own whitespace-ness — where the flag is updated *only* by
such plain emissions: the `:` rule and the special-character replacements emit
without touching it (so the flag need not agree with the last emitted
character). -/
theorem sanitize_collapse_flag :
    (∀ (p : List Char) (d : Char) (r : List Char),
      (∀ c ∈ p, isSpecial c = false) → isSpecial d = true →
        sanitize (p ++ d :: r) = p ++ sanLoop (d :: r) false)
    ∧ (∀ (c : Char) (rest : List Char) (lw : Bool), c ≠ ':' → map c = none →
        sanLoop (c :: rest) lw =
          if lw && rustWs c then sanLoop rest lw else c :: sanLoop rest (rustWs c))
    ∧ (∀ (c : Char) (rest : List Char) (lw : Bool),
        sanLoop (':' :: c :: rest) lw =
          if rustWs c then ' ' :: '-' :: ' ' :: sanLoop rest lw
          else '-' :: sanLoop (c :: rest) lw)
    ∧ (∀ (rest : List Char) (lw : Bool), sanLoop ('/' :: rest) lw = '+' :: sanLoop rest lw) := by
  refine ⟨?_, ?_, ?_, ?_⟩
  · intro p d r hp hd
    simpa [sanitize] using sanitizeAux_split p d r hp hd []
  · intro c rest lw h h2
    rw [sanLoop.eq_def]; simp [h, h2]
  · intro c rest lw
    rw [sanLoop.eq_def]; simp
  · intro rest lw
    rw [sanLoop.eq_def]; simp [map]

/-- Witness for C8's amended statement at concrete inputs. -/
theorem sanitize_collapse_flag_witness :
    sanitize (['a'] ++ ':' :: [' ', ' ', 'b']) = ['a'] ++ sanLoop (':' :: [' ', ' ', 'b']) false
    ∧ sanLoop (' ' :: [' ']) true =
        (if true && rustWs ' ' then sanLoop [' '] true else ' ' :: sanLoop [' '] (rustWs ' ')) :=
  ⟨sanitize_collapse_flag.1 ['a'] ':' [' ', ' ', 'b'] (by decide) (by decide),
   sanitize_collapse_flag.2.1 ' ' [' '] true (by decide) (by decide)⟩

/-- A Unicode whitespace character is neither a `+` sign nor an ASCII digit. -/
theorem rustWs_props (c : Char) (h : rustWs c = true) : c ≠ '+' ∧ c.isDigit = false := by
  simp only [rustWs, Bool.or_eq_true, beq_iff_eq] at h
  rcases h with ((((((((((((((((((((((((rfl | rfl) | rfl) | rfl) | rfl) | rfl) | rfl) | rfl) | rfl) | rfl) | rfl) | rfl) | rfl) | rfl) | rfl) | rfl) | rfl) | rfl) | rfl) | rfl) | rfl) | rfl) | rfl) | rfl) | rfl) <;>
    exact ⟨by decide, by decide⟩

/-- C3: `Prio::update` adopts a value only when it parsed and its priority is
strictly smaller than the held one — a priority greater than or equal to the
current one (ties included) leaves the accumulator unchanged, as does a failed
parse — and on the year field, items `Year="1980"` (priority 3) and
`OriginalReleaseDate="1975-06-01"` (priority 1) resolve to 1975 in either
order. -/
theorem prio_update_strict :
    (∀ (T : Type) (st : Prio T) (v : Option T) (k : Nat), Prio.update st v (st.prio + k) = st)
    ∧ (∀ (T : Type) (st : Prio T) (p : Nat), Prio.update st none p = st)
    ∧ (∀ (T : Type) (st : Prio T) (v : T) (p : Nat),
        Prio.update st (some v) p = if p < st.prio then { value := some v, prio := p } else st)
    ∧ (resolveAccs [⟨.Year, .Text "1980"⟩, ⟨.OriginalReleaseDate, .Text "1975-06-01"⟩]).year.value
        = some 1975
    ∧ (resolveAccs [⟨.OriginalReleaseDate, .Text "1975-06-01"⟩, ⟨.Year, .Text "1980"⟩]).year.value
        = some 1975 := by
  refine ⟨?_, ?_, ?_, by decide, by decide⟩
  · intro T st v k
    cases v with
    | none => rfl
    | some v =>
      simp [Prio.update, Nat.not_lt.mpr (Nat.le_add_right st.prio k)]
  · intro T st p; rfl
  · intro T st v p; rfl

/-- C9 counterexample: the generic numeric extractor does not trim — on the
text `" 5"` it rejects, while the claimed trimmed parse accepts with value 5. -/
theorem parse_trim_cex :
    parse32 (ItemValue.Text " 5") ≠ parseClaimC9 (ItemValue.Text " 5")
    ∧ parse32 (ItemValue.Text " 5") = none
    ∧ parseClaimC9 (ItemValue.Text " 5") = some 5 := by
  refine ⟨by decide, by decide, by decide⟩

/-- C9 (amended): the numeric extractor used for track number, disc number and
disc total parses the raw (untrimmed) text of the item's value as the target
integer type — so a value with leading whitespace is rejected — and a rejected
value leaves the accumulator unchanged. -/
theorem parse_untrimmed_numeric :
    (∀ (st : Prio Nat) (p : Nat), Prio.update st none p = st)
    ∧ (∀ (c : Char) (l : List Char), rustWs c = true →
        parse32 (ItemValue.Text (String.mk (c :: l))) = none)
    ∧ parse32 (ItemValue.Text " 5") = none
    ∧ parse32 (ItemValue.Text "5") = some 5 := by
  refine ⟨fun st p => rfl, ?_, by decide, by decide⟩
  intro c l h
  obtain ⟨hplus, hdig⟩ := rustWs_props c h
  simp [parse32, ItemValue.text, rustParseU32, stripPlus, parseNatDigits, hplus, hdig]

/-- Witness for C9's amended statement at the concrete text `" 5"`. -/
theorem parse_untrimmed_numeric_witness :
    parse32 (ItemValue.Text (String.mk (' ' :: ['5']))) = none :=
  parse_untrimmed_numeric.2.1 ' ' ['5'] (by decide)

/-- C4: the value closure of `Parts::from_path` appends one distinct
`"missing <field>"` error per absent required field — all five of year, album,
artist, title, track checked independently, no short-circuiting — and yields a
record exactly when all five resolved; the disc pair is populated only when
both disc number and disc total resolved, and its absence contributes no
error; concretely, a file lacking `TrackNumber` and `TrackTitle` yields `None`
with the error log holding exactly `"missing title"` and
`"missing track number"`. -/
theorem missing_field_errors :
    (∀ a : Accs,
      ((partsValue a).1.count "missing year" = if a.year.value.isNone then 1 else 0)
      ∧ ((partsValue a).1.count "missing album" = if a.album.value.isNone then 1 else 0)
      ∧ ((partsValue a).1.count "missing artist" = if a.artist.value.isNone then 1 else 0)
      ∧ ((partsValue a).1.count "missing title" = if a.title.value.isNone then 1 else 0)
      ∧ ((partsValue a).1.count "missing track number" = if a.track.value.isNone then 1 else 0)
      ∧ ((partsValue a).1.length =
          (if a.year.value.isNone then 1 else 0) + (if a.album.value.isNone then 1 else 0)
          + (if a.artist.value.isNone then 1 else 0) + (if a.title.value.isNone then 1 else 0)
          + (if a.track.value.isNone then 1 else 0))
      ∧ ((partsValue a).2.isSome =
          (a.year.value.isSome && a.album.value.isSome && a.artist.value.isSome
            && a.title.value.isSome && a.track.value.isSome))
      ∧ ((partsValue a).2.elim True (fun p => p.set =
          match a.discNumber.value, a.discTotal.value with
          | some n, some total => some (n, total)
          | _, _ => none))
      ∧ ((partsValue { a with discNumber := Prio.new, discTotal := Prio.new }).1
          = (partsValue a).1))
    ∧ fromPath (some [⟨.Year, .Text "1980"⟩, ⟨.AlbumTitle, .Text "The Wall"⟩,
        ⟨.AlbumArtist, .Text "Pink Floyd"⟩]) []
      = (["missing title", "missing track number"], none) := by
  refine ⟨?_, by decide⟩
  rintro ⟨⟨yv, yp⟩, ⟨alv, alp⟩, ⟨arv, arp⟩, ⟨tiv, tip⟩, ⟨trv, trp⟩, ⟨mtv, mtp⟩, ⟨dnv, dnp⟩, ⟨dtv, dtp⟩⟩
  rcases yv with _ | y <;> rcases alv with _ | al <;> rcases arv with _ | ar <;>
    rcases tiv with _ | ti <;> rcases trv with _ | tr <;> simp [partsValue]

/-- C10: with no primary tag, `Parts::from_path` pushes the single error
`"missing primary tag"` and returns no record at once — none of the five
per-field errors is recorded. -/
theorem missing_primary_tag_guard :
    (∀ errors : List String, fromPath none errors = (errors ++ ["missing primary tag"], none))
    ∧ fromPath none [] = (["missing primary tag"], none)
    ∧ (fromPath none []).1.count "missing year" = 0
    ∧ (fromPath none []).1.count "missing album" = 0
    ∧ (fromPath none []).1.count "missing artist" = 0
    ∧ (fromPath none []).1.count "missing title" = 0
    ∧ (fromPath none []).1.count "missing track number" = 0 := by
  exact ⟨fun errors => rfl, by decide, by decide, by decide, by decide, by decide, by decide⟩

/-- `Tag::insert` only ever places the inserted item: every member of the
result was already in the tag or is the item itself. -/
theorem tagInsert_mem (supported : TagType → ItemKey → Bool) (t : Tag) (x i : TagItem)
    (h : i ∈ (Tag.insert supported t x).items) : i ∈ t.items ∨ i = x := by
  unfold Tag.insert at h
  by_cases hs : supported t.tagType x.key
  · simp [hs, List.mem_append, List.mem_filter] at h
    rcases h with ⟨hm, _⟩ | rfl
    · exact Or.inl hm
    · exact Or.inr rfl
  · simp [hs] at h
    exact Or.inl h

/-- Folding `Tag::insert` over a list fabricates nothing: every member of the
result was in the starting tag or among the inserted items. -/
theorem foldlInsert_mem (supported : TagType → ItemKey → Bool) :
    ∀ (items : List TagItem) (t : Tag) (i : TagItem),
      i ∈ (items.foldl (Tag.insert supported) t).items → i ∈ t.items ∨ i ∈ items := by
  intro items
  induction items with
  | nil => intro t i h; exact Or.inl h
  | cons x xs ih =>
    intro t i h
    rcases ih (Tag.insert supported t x) i h with hm | hm
    · rcases tagInsert_mem supported t x i hm with hm2 | rfl
      · exact Or.inl hm2
      · exact Or.inr (List.mem_cons_self i xs)
    · exact Or.inr (List.mem_cons_of_mem x hm)

/-- C5: `Meta::tag_file` is a successful no-op when the source has no primary
tag; when the source tag's type equals the target's native tag type the whole
source tag is transplanted verbatim (same item list, same keys and values);
and in every case — in particular the type-mismatch fallback that copies items
one at a time — every item of the produced tag existed in the source, so no
item is fabricated. -/
theorem tag_file_transplant :
    (∀ (native : TagType) (supported : TagType → ItemKey → Bool),
        tagFileCore none native supported = none)
    ∧ (∀ (src : Tag) (supported : TagType → ItemKey → Bool),
        tagFileCore (some src) src.tagType supported = some src)
    ∧ (∀ (src : Tag) (native : TagType) (supported : TagType → ItemKey → Bool),
        ((tagFileCore (some src) native supported).elim ([] : List TagItem) Tag.items)
          ⊆ src.items) := by
  refine ⟨fun native supported => rfl, ?_, ?_⟩
  · intro src supported
    simp [tagFileCore]
  · intro src native supported i hi
    unfold tagFileCore at hi
    by_cases he : src.tagType = native
    · simp [he] at hi
      exact hi
    · simp [he] at hi
      rcases foldlInsert_mem supported src.items (Tag.new native) i hi with hm | hm
      · simp [Tag.new] at hm
      · exact hm

/-- Witness for C5: membership transported through the fallback path at a
concrete source tag, target type and key table. -/
theorem tag_file_transplant_witness : tagItemEx ∈ srcTagEx.items :=
  tag_file_transplant.2.2 srcTagEx .VorbisComments (fun _ _ => true) (by decide)

/-- C6: `Parts::append_to` appends exactly these independently sanitized
segments in order — the artist; `"album (year)"`; iff a disc pair is present
with total > 1, the media type plus a space (when present) followed by the
2-digit zero-padded disc number; and
`"artist - album - track(2 digits) - title"` — with the worked Pink Floyd
example, and the disc segment omitted when the disc total is at most 1. -/
theorem append_to_segments :
    (∀ (p : Parts) (path : List String),
      appendTo p path = path
        ++ [sanitizeStr p.artist,
            sanitizeStr (p.album ++ " (" ++ toString p.year ++ ")")]
        ++ (match p.set with
            | some (n, total) =>
              if 1 < total then
                [sanitizeStr ((match p.mediaType with
                  | some m => m ++ " "
                  | none => "") ++ pad2 n)]
              else []
            | none => [])
        ++ [sanitizeStr (p.artist ++ " - " ++ p.album ++ " - " ++ pad2 p.track
              ++ " - " ++ p.title)])
    ∧ appendTo pfEx [] =
        ["Pink Floyd", "The Wall (1979)", "CD 01", "Pink Floyd - The Wall - 05 - Mother"]
    ∧ appendTo pfEx1 [] =
        ["Pink Floyd", "The Wall (1979)", "Pink Floyd - The Wall - 05 - Mother"] := by
  refine ⟨?_, by decide, by decide⟩
  intro p path
  rcases hs : p.set with _ | ⟨n, total⟩
  · simp [appendTo, hs]
  · by_cases ht : 1 < total <;> simp [appendTo, hs, ht]

/-- Inserting a pick makes it the entry looked up for its catalog. -/
theorem lookupPick_insert (picked : List (Nat × Nat)) (k v : Nat) :
    lookupPick (insertPick picked k v) k = some v := by
  simp [lookupPick, insertPick, List.find?_cons]

/-- C1 counterexample: with two catalogs and an empty pick table, confirming
candidate 0 while browsing catalog 0 inserts the entry, yet the engine returns
to the catalog list with its catalog cursor still 0 although the next catalog
without an entry is 1 — it does not make that catalog active; and confirming
again with the cursor on the already-picked candidate leaves catalog 0's entry
in the table rather than removing it. -/
theorem enter_confirm_cex :
    ((enterStep catsEx appEx []).2.1 = [(0, 0)])
    ∧ (nextUnpicked catsEx (enterStep catsEx appEx []).2.1 = some 1)
    ∧ ((enterStep catsEx appEx []).1.view = View.Catalogs)
    ∧ ((enterStep catsEx appEx []).1.catalogIndex = 0)
    ∧ ((enterStep catsEx appEx []).1.catalogIndex ≠ 1)
    ∧ (lookupPick (enterStep catsEx appEx [(0, 0)]).2.1 0 ≠ none) := by
  refine ⟨by decide, by decide, by decide, by decide, by decide, by decide⟩

/-- C1 (amended): confirming the cursor on candidate `i` while browsing
catalog `N`'s candidate list inserts the entry `N → i` into the pick table
(replacing any previous entry for `N` — there is no unpick transition); when
every catalog then has an entry the loop finishes with outcome `true`, and
otherwise the engine returns to the catalog list with its catalog cursor
unchanged — it does not advance to the next catalog without an entry. -/
theorem enter_confirm_behavior :
    ∀ (cats : List CatalogM) (catIdx cI bIdx sx : Nat) (exp : List Nat)
      (picked : List (Nat × Nat)),
      ((enterStep cats ⟨View.Books catIdx, cI, bIdx, sx, exp⟩ picked).2.1
          = insertPick picked catIdx bIdx)
      ∧ (lookupPick (enterStep cats ⟨View.Books catIdx, cI, bIdx, sx, exp⟩ picked).2.1 catIdx
          = some bIdx)
      ∧ ((enterStep cats ⟨View.Books catIdx, cI, bIdx, sx, exp⟩ picked).1.catalogIndex = cI)
      ∧ ((enterStep cats ⟨View.Books catIdx, cI, bIdx, sx, exp⟩ picked).1.bookIndex = bIdx)
      ∧ ((enterStep cats ⟨View.Books catIdx, cI, bIdx, sx, exp⟩ picked).1.view
          = if (nextUnpicked cats (insertPick picked catIdx bIdx)).isNone
            then View.Books catIdx else View.Catalogs)
      ∧ ((enterStep cats ⟨View.Books catIdx, cI, bIdx, sx, exp⟩ picked).2.2
          = if (nextUnpicked cats (insertPick picked catIdx bIdx)).isNone
            then some true else none) := by
  intro cats catIdx cI bIdx sx exp picked
  have h21 : (enterStep cats ⟨View.Books catIdx, cI, bIdx, sx, exp⟩ picked).2.1
      = insertPick picked catIdx bIdx := by
    simp only [enterStep]
    split <;> rfl
  refine ⟨h21, ?_, ?_, ?_, ?_, ?_⟩
  · rw [h21]; exact lookupPick_insert picked catIdx bIdx
  all_goals simp only [enterStep]; split <;> simp_all
